import Mathlib

/-!
Shallow embedding of `server.py` (DollarSpotMap), NASA POWER proxy endpoint
`get_nasa_power_data`.  Python floats are modelled by `FVal`: either a finite
rational, NaN, or an infinity (binary-float representation error is not
modelled).  Provider JSON values for one date are modelled by `RawVal`.
Date keys are the provider's 8-digit YYYYMMDD strings; since Python sorts
these equal-width digit strings lexicographically, which coincides with
numeric order, we model a date key as the natural number it spells.
-/

namespace DollarSpotMap

/-- Result of Python `float(x)` when it succeeds: NaN, an infinity, or a
finite value (modelled as an exact rational). -/
inductive FVal where
  | nan
  | posInf
  | negInf
  | fin (q : ℚ)
deriving DecidableEq, Repr

/-- An element of a JSON array value: a scalar `float()` accepts (`val`),
or anything on which `float()` raises TypeError/ValueError (`bad`, e.g. a
non-numeric string, an object, or a nested array). -/
inductive Item where
  | val (v : FVal)
  | bad
deriving DecidableEq, Repr

/-- A raw per-date JSON value as the code sees it after `temp_data.get(date)`:
absent (key missing or JSON null), a scalar `float()` accepts (`val`), a JSON
array (`arr`), or a value on which `float()` raises (`bad`). -/
inductive RawVal where
  | absent
  | val (v : FVal)
  | arr (xs : List Item)
  | bad
deriving DecidableEq, Repr

/-- Lines 143-148: `if isinstance(v, list): v = v[0] if v else None` —
a one-element (or longer) array is unwrapped to its first element, an empty
array becomes `None`; non-arrays pass through. -/
def unwrapList : RawVal → RawVal
  | .arr [] => .absent
  | .arr (.val v :: _) => .val v
  | .arr (.bad :: _) => .bad
  | v => v

/-- Lines 150-175, the temperature classifier applied to `float(temp_val)`.
The chain is `if tv < -100 or tv > 400: (invalid) elif 200 <= tv <= 350:
keep elif -80 <= tv <= 80: keep else: keep if -150 < tv < 450`.
NaN fails every comparison in the chain (Python NaN comparisons are all
False), so it falls through every branch and stays invalid; +inf hits
`tv > 400`, -inf hits `tv < -100`.  The separate `if tv != tv` line only
prints and does not alter control flow (it is not part of the elif chain). -/
def tempValidF : FVal → Option ℚ
  | .nan => none
  | .posInf => none
  | .negInf => none
  | .fin q =>
    if q < -100 ∨ 400 < q then none
    else if 200 ≤ q ∧ q ≤ 350 then some q
    else if -80 ≤ q ∧ q ≤ 80 then some q
    else if -150 < q ∧ q < 450 then some q
    else none

/-- `temp_valid` for one raw value: unwrap an array, then `float()` must
succeed (absent / nested array / non-coercible values leave it `None`),
then classify. -/
def temp_valid (v : RawVal) : Option ℚ :=
  match unwrapList v with
  | .val f => tempValidF f
  | _ => none

/-- Lines 177-193, the humidity classifier applied to `float(hum_val)`:
`if hv != hv: (NaN, invalid) elif hv < 0 or hv > 100: (invalid) else: keep`.
Infinities fall in the out-of-range branch. -/
def humValidF : FVal → Option ℚ
  | .fin q => if q < 0 ∨ 100 < q then none else some q
  | _ => none

/-- `hum_valid` for one raw value (same unwrapping/coercion as temperature). -/
def hum_valid (v : RawVal) : Option ℚ :=
  match unwrapList v with
  | .val f => humValidF f
  | _ => none

/-- The `properties.parameter` block of a well-shaped provider payload:
the `T2M` and `RH2M` per-date dictionaries, as association lists keyed by
8-digit dates.  Python dict keys are unique; theorems that need this carry a
`Nodup` hypothesis on the key list. -/
structure Payload where
  temp : List (ℕ × RawVal)
  hum : List (ℕ × RawVal)
deriving DecidableEq, Repr

/-- `d.get(key)` on a dict: the stored value, or `None` (`absent`) if the
key is missing. -/
def getD (m : List (ℕ × RawVal)) (d : ℕ) : RawVal :=
  (m.lookup d).getD .absent

/-- Line 108: `dates = sorted(temp_data.keys())` — the candidate dates are
the sorted keys of the temperature series only. -/
def rawDates (p : Payload) : List ℕ :=
  List.insertionSort (· ≤ ·) (p.temp.map Prod.fst)

/-- Line 196: `if temp_valid is not None and hum_valid is not None:` —
the date joins the valid lists exactly when both classifiers accepted. -/
def mkTriple (d : ℕ) : Option ℚ → Option ℚ → Option (ℕ × ℚ × ℚ)
  | some t, some h => some (d, t, h)
  | _, _ => none

/-- The loop of lines 134-202: for each candidate date, classify both
fields; the date contributes (date, temperature, humidity) exactly when
both are valid, in candidate (ascending date) order. -/
def validTriples (p : Payload) : List (ℕ × ℚ × ℚ) :=
  (rawDates p).filterMap fun d =>
    mkTriple d (temp_valid (getD p.temp d)) (hum_valid (getD p.hum d))

/-- `valid_dates` after the loop (before the keep-5 slice). -/
def valid_dates (p : Payload) : List ℕ :=
  (validTriples p).map Prod.fst

/-- `temperatures` after the loop (before the keep-5 slice). -/
def temperatures (p : Payload) : List ℚ :=
  (validTriples p).map fun x => x.2.1

/-- `humidities` after the loop (before the keep-5 slice). -/
def humidities (p : Payload) : List ℚ :=
  (validTriples p).map fun x => x.2.2

/-- Python `xs[-5:]`: the last 5 elements (all of them when fewer). -/
def lastN (n : ℕ) (xs : List α) : List α :=
  xs.drop (xs.length - n)

/-- Lines 219-224: `if len(temperatures) > 5:` slice all three lists to
their last five elements; `k` is `len(temperatures)` at that point. -/
def keep (k : ℕ) (xs : List α) : List α :=
  if 5 < k then lastN 5 xs else xs

/-- Floor of a rational (`Int.fdiv` is floor division). -/
def ifloor (q : ℚ) : ℤ :=
  q.num.fdiv (q.den : ℤ)

/-- Round-half-to-even to the nearest integer, the idealised semantics of
Python 3 `round` on the embedded rational value. -/
def rhe (x : ℚ) : ℤ :=
  if x - ifloor x < 1/2 then ifloor x
  else if 1/2 < x - ifloor x then ifloor x + 1
  else if ifloor x % 2 = 0 then ifloor x else ifloor x + 1

/-- Python `round(x, 2)` on the embedded value. -/
def round2 (q : ℚ) : ℚ :=
  (rhe (q * 100) : ℚ) / 100

/-- `sum(xs) / len(xs)` (the code only evaluates this with `len ≥ 3`). -/
def mean (xs : List ℚ) : ℚ :=
  xs.sum / (xs.length : ℚ)

/-- Line 233: `temp_celsius = avg_temp - 273.15 if avg_temp > 100 else
avg_temp` — the Kelvin-vs-Celsius decision made once, on the mean. -/
def tempCelsius (m : ℚ) : ℚ :=
  if 100 < m then m - 273.15 else m

/-- The success JSON body of lines 235-243. -/
structure Summary where
  dates : List ℕ
  temperatures : List ℚ
  humidities : List ℚ
  avgTemp : ℚ
  avgHumidity : ℚ
  dataDays : ℕ
deriving DecidableEq, Repr

/-- The kept (post-slice) dates. -/
def keptDates (p : Payload) : List ℕ :=
  keep (temperatures p).length (valid_dates p)

/-- The kept (post-slice) temperatures. -/
def keptTemps (p : Payload) : List ℚ :=
  keep (temperatures p).length (temperatures p)

/-- The kept (post-slice) humidities. -/
def keptHums (p : Payload) : List ℚ :=
  keep (temperatures p).length (humidities p)

/-- Lines 219-243 on the success path: slice, average, convert, round. -/
def mkSummary (p : Payload) : Summary :=
  { dates := keptDates p
    temperatures := keptTemps p
    humidities := keptHums p
    avgTemp := round2 (tempCelsius (mean (keptTemps p)))
    avgHumidity := round2 (mean (keptHums p))
    dataDays := (keptDates p).length }

/-- Outcomes of the pipeline from line 94 on (after the
`properties`/`parameter` shape checks), with each error's f-string payload
carried structurally: `errNoTempData`/`errNoHumData` are the 500s of lines
97-101 (note `not temp_data` is also true for an *empty* dict);
`errInsufficientRaw` is the 500 of lines 115-118 whose message interpolates
`len(dates)` and `dates`; `errInsufficientValid` is the 500 of lines
215-217 whose message interpolates `len(temperatures)` and `valid_dates`. -/
inductive Result where
  | errNoTempData
  | errNoHumData
  | errInsufficientRaw (count : ℕ) (dates : List ℕ)
  | errInsufficientValid (count : ℕ) (validDates : List ℕ)
  | ok (s : Summary)
deriving DecidableEq, Repr

/-- The data-reduction pipeline of `get_nasa_power_data` (lines 94-243),
given the two parameter series of a payload that passed the
`properties`/`parameter` shape checks.  Lines 209-217 return the
insufficient-valid error exactly when `len(temperatures) < 3` (the
`< 5` test with a warning for `3 ≤ len < 5` changes nothing else). -/
def get_nasa_power_data (p : Payload) : Result :=
  if p.temp.isEmpty then .errNoTempData
  else if p.hum.isEmpty then .errNoHumData
  else if (rawDates p).length < 3 then
    .errInsufficientRaw (rawDates p).length (rawDates p)
  else if (temperatures p).length < 3 then
    .errInsufficientValid (temperatures p).length (valid_dates p)
  else .ok (mkSummary p)

/-- One inbound query as Flask delivers it to the handler.
`request.args.get('lat', type=float)` yields `None` both when the parameter
is absent and when it is present but not float-parsable, so `lat`/`lng` are
`some q` exactly for a present, parsable value; `date` is the raw string,
modelled as its character sequence (`none` when absent). -/
structure Query where
  lat : Option ℚ
  lng : Option ℚ
  date : Option (List Char)
deriving DecidableEq, Repr

/-- Python truthiness of a float-or-None: `None` and `0.0` are falsy. -/
def pyTruthyFloat : Option ℚ → Bool
  | none => false
  | some q => q != 0

/-- Python truthiness of a string-or-None: `None` and `""` are falsy. -/
def pyTruthyStr : Option (List Char) → Bool
  | none => false
  | some s => !(s.isEmpty)

/-- Gregorian leap year. -/
def isLeap (y : ℕ) : Bool :=
  (y % 4 == 0 && y % 100 != 0) || y % 400 == 0

/-- Length of a month in the proleptic Gregorian calendar. -/
def daysInMonth (y m : ℕ) : ℕ :=
  if m = 2 then (if isLeap y then 29 else 28)
  else if m = 4 ∨ m = 6 ∨ m = 9 ∨ m = 11 then 30
  else 31

/-- Split a character sequence at every dash. -/
def splitDash : List Char → List (List Char)
  | [] => [[]]
  | c :: cs =>
    if c = '-' then [] :: splitDash cs
    else
      match splitDash cs with
      | [] => [[c]]
      | g :: gs => (c :: g) :: gs

/-- Read a nonempty all-digit character sequence as a decimal number. -/
def digitsToNat : List Char → Option ℕ
  | [] => none
  | cs => cs.foldl (fun acc c =>
      match acc with
      | none => none
      | some n => if c.isDigit then some (n * 10 + (c.toNat - 48)) else none)
      (some 0)

/-- `datetime.strptime(s, '%Y-%m-%d')`: three dash-separated decimal
fields forming a real calendar date, else a ValueError (`none`). -/
def parseYmd (s : List Char) : Option (ℕ × ℕ × ℕ) :=
  match (splitDash s).map digitsToNat with
  | [some y, some m, some d] =>
    if 1 ≤ m ∧ m ≤ 12 ∧ 1 ≤ d ∧ d ≤ daysInMonth y m then some (y, m, d) else none
  | _ => none

/-- What the handler does before any outbound traffic. -/
inductive PreCheck where
  | reject400
  | dateError500
  | callProvider (y m d : ℕ)
deriving DecidableEq, Repr

/-- Lines 27-61 of `get_nasa_power_data` up to the provider call:
`if not lat or not lng or not date_str: return (..., 400)` — Python
truthiness, so `lat == 0.0` or `lng == 0.0` is rejected exactly like a
missing parameter; then `datetime.strptime(date_str, '%Y-%m-%d')`, whose
ValueError propagates to the generic `except Exception` handler (line 247)
and yields a 500 without contacting the provider; otherwise control reaches
`requests.get` (`callProvider`, carrying the parsed target date). -/
def handlerPre (q : Query) : PreCheck :=
  if pyTruthyFloat q.lat && pyTruthyFloat q.lng && pyTruthyStr q.date then
    match q.date with
    | none => .reject400
    | some s =>
      match parseYmd s with
      | none => .dateError500
      | some (y, m, d) => .callProvider y m d
  else .reject400

/-- Both classifiers accept the date's values. -/
def bothValid (p : Payload) (d : ℕ) : Bool :=
  (temp_valid (getD p.temp d)).isSome && (hum_valid (getD p.hum d)).isSome

/-- A concrete payload: 7 clean days (Kelvin-range temperatures, in-range
humidities), all valid. -/
def W1 : Payload :=
  { temp := [(20240601, .val (.fin 300)), (20240602, .val (.fin 301)),
             (20240603, .val (.fin 302)), (20240604, .val (.fin 303)),
             (20240605, .val (.fin 304)), (20240606, .val (.fin 305)),
             (20240607, .val (.fin 306))]
    hum := [(20240601, .val (.fin 50)), (20240602, .val (.fin 51)),
            (20240603, .val (.fin 52)), (20240604, .val (.fin 53)),
            (20240605, .val (.fin 54)), (20240606, .val (.fin 55)),
            (20240607, .val (.fin 56))] }

/-- A concrete payload: 5 raw days, two of them with the humidity sentinel
-999, so exactly 3 validated days. -/
def W4 : Payload :=
  { temp := [(1, .val (.fin 300)), (2, .val (.fin 301)), (3, .val (.fin 302)),
             (4, .val (.fin 303)), (5, .val (.fin 304))]
    hum := [(1, .val (.fin 50)), (2, .val (.fin 51)), (3, .val (.fin 52)),
            (4, .val (.fin (-999))), (5, .val (.fin (-999)))] }

/-- A concrete payload with only 2 raw temperature dates. -/
def P7 : Payload :=
  { temp := [(1, .val (.fin 300)), (2, .val (.fin 301))]
    hum := [(1, .val (.fin 50)), (2, .val (.fin 51))] }

/-- Same temperature dates as `P7` but entirely different values, and a
humidity series about an unrelated date. -/
def Q7 : Payload :=
  { temp := [(1, .bad), (2, .absent)]
    hum := [(9, .val (.fin 50))] }

/-- A concrete payload whose humidity series carries an extra date (99)
absent from the temperature series. -/
def W10 : Payload :=
  { temp := [(1, .val (.fin 300)), (2, .val (.fin 301)), (3, .val (.fin 302))]
    hum := [(1, .val (.fin 50)), (2, .val (.fin 51)), (3, .val (.fin 52)),
            (99, .val (.fin 53))] }

/-! ## Helper lemmas -/

theorem mkTriple_isSome (d : ℕ) (t h : Option ℚ) :
    (mkTriple d t h).isSome = (t.isSome && h.isSome) := by
  cases t <;> cases h <;> rfl

theorem mkTriple_fst {d : ℕ} {t h : Option ℚ} {x : ℕ × ℚ × ℚ}
    (hx : mkTriple d t h = some x) : x.1 = d := by
  cases t <;> cases h <;> simp only [mkTriple, reduceCtorEq, Option.some.injEq] at hx
  rw [← hx]

theorem map_fst_filterMap (p : Payload) (l : List ℕ) :
    (l.filterMap fun d =>
      mkTriple d (temp_valid (getD p.temp d)) (hum_valid (getD p.hum d))).map
        Prod.fst = l.filter (bothValid p) := by
  induction l with
  | nil => rfl
  | cons d l ih =>
    rw [List.filterMap_cons, List.filter_cons]
    have hb : bothValid p d
        = (mkTriple d (temp_valid (getD p.temp d))
            (hum_valid (getD p.hum d))).isSome :=
      (mkTriple_isSome _ _ _).symm
    cases htriple : mkTriple d (temp_valid (getD p.temp d))
        (hum_valid (getD p.hum d)) with
    | none =>
      rw [htriple] at hb
      simp [hb, ih]
    | some x =>
      rw [htriple] at hb
      simp [hb, ih, mkTriple_fst htriple]

theorem valid_dates_eq_filter (p : Payload) :
    valid_dates p = (rawDates p).filter (bothValid p) := by
  unfold valid_dates validTriples
  exact map_fst_filterMap p (rawDates p)

theorem temperatures_length (p : Payload) :
    (temperatures p).length = (valid_dates p).length := by
  simp [temperatures, valid_dates]

theorem humidities_length (p : Payload) :
    (humidities p).length = (valid_dates p).length := by
  simp [humidities, valid_dates]

theorem valid_dates_length_le (p : Payload) :
    (valid_dates p).length ≤ (rawDates p).length := by
  rw [valid_dates_eq_filter]
  exact List.length_filter_le _ _

theorem rawDates_sorted (p : Payload) : List.Sorted (· ≤ ·) (rawDates p) :=
  List.sorted_insertionSort _ _

theorem rawDates_perm (p : Payload) :
    List.Perm (rawDates p) (p.temp.map Prod.fst) :=
  List.perm_insertionSort _ _

theorem rawDates_length (p : Payload) : (rawDates p).length = p.temp.length := by
  rw [(rawDates_perm p).length_eq, List.length_map]

theorem rawDates_nodup {p : Payload} (h : (p.temp.map Prod.fst).Nodup) :
    (rawDates p).Nodup :=
  (rawDates_perm p).symm.nodup h

theorem valid_dates_sublist (p : Payload) :
    List.Sublist (valid_dates p) (rawDates p) := by
  rw [valid_dates_eq_filter]
  exact List.filter_sublist _

theorem valid_dates_sorted_lt {p : Payload} (h : (p.temp.map Prod.fst).Nodup) :
    List.Sorted (· < ·) (valid_dates p) := by
  have hs : List.Sorted (· ≤ ·) (valid_dates p) :=
    List.Pairwise.sublist (valid_dates_sublist p) (rawDates_sorted p)
  have hn : (valid_dates p).Nodup :=
    List.Nodup.sublist (valid_dates_sublist p) (rawDates_nodup h)
  exact hs.lt_of_le hn

theorem keep_sublist (k : ℕ) (xs : List α) : List.Sublist (keep k xs) xs := by
  unfold keep lastN
  split_ifs
  · exact List.drop_sublist _ _
  · exact List.Sublist.refl _

theorem keep_eq_lastN {xs : List α} {k : ℕ} (hxk : xs.length = k) (h5 : 5 ≤ k) :
    keep k xs = lastN 5 xs := by
  unfold keep
  split_ifs with h
  · rfl
  · unfold lastN
    have h0 : xs.length - 5 = 0 := by omega
    rw [h0, List.drop_zero]

theorem keep_length_of_ge {xs : List α} {k : ℕ} (hxk : xs.length = k) (h5 : 5 ≤ k) :
    (keep k xs).length = 5 := by
  unfold keep lastN
  split_ifs with h <;> simp [List.length_drop, hxk] <;> omega

theorem keep_length_bounds {xs : List α} {k : ℕ} (hxk : xs.length = k) (h3 : 3 ≤ k) :
    3 ≤ (keep k xs).length ∧ (keep k xs).length ≤ 5 ∧
      (k ≤ 5 → (keep k xs).length = k) := by
  unfold keep lastN
  split_ifs with h <;> refine ⟨?_, ?_, ?_⟩ <;> simp [List.length_drop, hxk] <;> omega

theorem keep_length_congr {xs : List α} {ys : List β} {k : ℕ}
    (h : xs.length = ys.length) : (keep k xs).length = (keep k ys).length := by
  unfold keep lastN
  split_ifs <;> simp [List.length_drop, h]

theorem validTriples_nil_of_hum_nil {p : Payload} (h : p.hum = []) :
    validTriples p = [] := by
  unfold validTriples
  refine List.filterMap_eq_nil_iff.mpr fun d _ => ?_
  have hget : getD p.hum d = .absent := by rw [h]; rfl
  rw [hget]
  cases temp_valid (getD p.temp d) <;> rfl

theorem hum_ne_nil_of_valid {p : Payload} (h : 1 ≤ (valid_dates p).length) :
    p.hum ≠ [] := by
  intro hnil
  rw [valid_dates, validTriples_nil_of_hum_nil hnil] at h
  simp at h

theorem temp_isEmpty_false_of_raw {p : Payload} (h : 1 ≤ (rawDates p).length) :
    p.temp.isEmpty = false := by
  cases htemp : p.temp with
  | nil =>
    rw [rawDates_length, htemp] at h
    simp at h
  | cons a l => rfl

theorem hum_isEmpty_false {p : Payload} (h : p.hum ≠ []) :
    p.hum.isEmpty = false := by
  cases hh : p.hum with
  | nil => exact absurd hh h
  | cons a l => rfl

theorem get_ok_of {p : Payload} (hh : p.hum ≠ []) (h3 : 3 ≤ (temperatures p).length) :
    get_nasa_power_data p = .ok (mkSummary p) := by
  have hvl : 3 ≤ (valid_dates p).length := by rw [← temperatures_length]; exact h3
  have hraw : 3 ≤ (rawDates p).length := le_trans hvl (valid_dates_length_le p)
  unfold get_nasa_power_data
  rw [temp_isEmpty_false_of_raw (by omega), hum_isEmpty_false hh]
  simp only [Bool.false_eq_true, if_false]
  rw [if_neg (by omega), if_neg (by omega)]

theorem get_eq_ok {p : Payload} {s : Summary} (h : get_nasa_power_data p = .ok s) :
    s = mkSummary p ∧ 3 ≤ (temperatures p).length := by
  unfold get_nasa_power_data at h
  split_ifs at h with h1 h2 h3 h4
  all_goals
    first
      | exact Result.noConfusion h
      | exact ⟨(Result.ok.inj h).symm, by omega⟩

theorem mem_validTriples {p : Payload} {x : ℕ × ℚ × ℚ} (hx : x ∈ validTriples p) :
    temp_valid (getD p.temp x.1) = some x.2.1 ∧
      hum_valid (getD p.hum x.1) = some x.2.2 ∧ x.1 ∈ rawDates p := by
  unfold validTriples at hx
  rcases List.mem_filterMap.mp hx with ⟨d, hd, hmatch⟩
  cases ht : temp_valid (getD p.temp d) <;>
    cases hh : hum_valid (getD p.hum d) <;> rw [ht, hh] at hmatch <;>
    simp only [mkTriple, Option.some.injEq, reduceCtorEq] at hmatch
  rw [← hmatch]
  exact ⟨ht, hh, hd⟩

theorem rhe_intCast (n : ℤ) : rhe ((n : ℚ)) = n := by
  have hf : ifloor ((n : ℚ)) = n := by
    simp [ifloor, Rat.num_intCast, Rat.den_intCast, Int.fdiv_one]
  simp [rhe, hf]

theorem get_insufficientRaw_of {p : Payload} (ht : p.temp ≠ []) (hh : p.hum ≠ [])
    (hr : (rawDates p).length < 3) :
    get_nasa_power_data p = .errInsufficientRaw (rawDates p).length (rawDates p) := by
  have h1 : p.temp.isEmpty = false := by
    cases hp : p.temp with
    | nil => exact absurd hp ht
    | cons a l => rfl
  unfold get_nasa_power_data
  rw [h1, hum_isEmpty_false hh]
  simp only [Bool.false_eq_true, if_false]
  rw [if_pos hr]

theorem tempValidF_accept {r : ℚ} (h1 : -100 ≤ r) (h2 : r ≤ 400) :
    tempValidF (.fin r) = some r := by
  simp only [tempValidF]
  rw [if_neg (by push_neg; exact ⟨h1, h2⟩)]
  by_cases hB : 200 ≤ r ∧ r ≤ 350
  · rw [if_pos hB]
  · rw [if_neg hB]
    by_cases hC : -80 ≤ r ∧ r ≤ 80
    · rw [if_pos hC]
    · rw [if_neg hC, if_pos (by constructor <;> linarith)]

theorem tempValidF_reject {r : ℚ} (h : r < -100 ∨ 400 < r) :
    tempValidF (.fin r) = none := by
  simp only [tempValidF]
  rw [if_pos h]

/-! ## Claim theorems -/

/-- Claim C1, counterexample: the claim says every temperature in the
residual range (-150,-80) is accepted as a fallback, but the code's first
guard `tv < -100 or tv > 400` rejects -120 even though
-150 < -120 < -80. -/
theorem temp_residual_claim_false :
    ((-150 : ℚ) < -120 ∧ (-120 : ℚ) < -80) ∧
      temp_valid (.val (.fin (-120))) = none :=
  ⟨by norm_num, by decide⟩

/-- Claim C1 (amended): the classifier accepts a finite temperature t
exactly when -100 ≤ t ≤ 400 (the invalid region is everything outside
[-100,400], not outside [-150,450]; the Kelvin tier [200,350] and the
Celsius tier [-80,80] are accepted, and the effective residual fallback is
[-100,-80) ∪ (80,200) ∪ (350,400], the guard -150 < t < 450 being
unreachable outside that).  In particular 200.0 is valid, 199.9 is
accepted while lying in neither named tier (fallback), and -999 is
rejected. -/
theorem temp_tier_amended (q : ℚ) :
    temp_valid (.val (.fin q)) = (if -100 ≤ q ∧ q ≤ 400 then some q else none) ∧
    temp_valid (.val (.fin 200)) = some 200 ∧
    temp_valid (.val (.fin (199.9 : ℚ))) = some (199.9 : ℚ) ∧
    ((199.9 : ℚ) < 200 ∧ (80 : ℚ) < 199.9) ∧
    temp_valid (.val (.fin (-999))) = none := by
  refine ⟨?_, by decide, ?_, by norm_num, by decide⟩
  · have hrepr : temp_valid (.val (.fin q)) = tempValidF (.fin q) := rfl
    rw [hrepr]
    by_cases hE : -100 ≤ q ∧ q ≤ 400
    · rw [if_pos hE]
      exact tempValidF_accept hE.1 hE.2
    · rw [if_neg hE]
      rcases not_and_or.mp hE with h | h
      · exact tempValidF_reject (Or.inl (by linarith [not_le.mp h]))
      · exact tempValidF_reject (Or.inr (by linarith [not_le.mp h]))
  · have hrepr : temp_valid (.val (.fin (199.9 : ℚ)))
        = tempValidF (.fin (199.9 : ℚ)) := rfl
    rw [hrepr]
    exact tempValidF_accept (by norm_num) (by norm_num)

/-- Claim C6: a finite humidity h is valid exactly when 0 ≤ h ≤ 100;
NaN and the infinities are invalid; 100.0 is valid while 100.1 and -999
are invalid. -/
theorem humidity_validity (q : ℚ) :
    hum_valid (.val (.fin q)) = (if 0 ≤ q ∧ q ≤ 100 then some q else none) ∧
    hum_valid (.val .nan) = none ∧
    hum_valid (.val .posInf) = none ∧
    hum_valid (.val .negInf) = none ∧
    hum_valid (.val (.fin 100)) = some 100 ∧
    hum_valid (.val (.fin (100.1 : ℚ))) = none ∧
    hum_valid (.val (.fin (-999))) = none := by
  refine ⟨?_, rfl, rfl, rfl, by decide, ?_, by decide⟩
  · have hrepr : hum_valid (.val (.fin q)) = humValidF (.fin q) := rfl
    rw [hrepr]
    simp only [humValidF]
    by_cases hI : q < 0 ∨ 100 < q
    · rw [if_pos hI, if_neg ?_]
      intro hE
      rcases hI with h | h
      · linarith [hE.1]
      · linarith [hE.2]
    · rw [if_neg hI, if_pos (by push_neg at hI; exact hI)]
  · have hrepr : hum_valid (.val (.fin (100.1 : ℚ)))
        = humValidF (.fin (100.1 : ℚ)) := rfl
    rw [hrepr]
    simp only [humValidF]
    rw [if_pos (Or.inr (by norm_num))]

/-- Claim C3 (code bug evaluation): the query lat=0.0, lng=135.0,
date=2024-06-01 has all three parameters present and parsable (the date
even parses), yet the handler answers the 400 "required" response and
never reaches the provider call, because `if not lat` treats the float
0.0 like a missing parameter; with any nonzero latitude the same query
proceeds to the provider. -/
theorem zero_lat_rejected :
    handlerPre ⟨some 0, some 135, some ("2024-06-01".toList)⟩ = .reject400 ∧
    (parseYmd ("2024-06-01".toList)).isSome = true ∧
    handlerPre ⟨some 35, some 135, some ("2024-06-01".toList)⟩
      = .callProvider 2024 6 1 := by
  refine ⟨by decide, by decide, by decide⟩

/-- Claim C9: the reduction pipeline is deterministic — identical raw
provider payloads produce identical summaries (the pipeline is a pure
function of the payload). -/
theorem pipeline_deterministic (p q : Payload) (h : p = q) :
    get_nasa_power_data p = get_nasa_power_data q := by
  rw [h]

theorem pipeline_deterministic_witness :
    get_nasa_power_data W1 = get_nasa_power_data W1 :=
  pipeline_deterministic W1 W1 rfl

/-- Claim C2: with at least 5 valid days the response is a success whose
dayCount is 5, and the kept dates are the last (most recent) five of the
ascending valid-date list, themselves in ascending order.  The `Nodup`
hypothesis records that Python dict keys are distinct. -/
theorem five_most_recent (p : Payload) (hk : (p.temp.map Prod.fst).Nodup)
    (h5 : 5 ≤ (valid_dates p).length) :
    get_nasa_power_data p = .ok (mkSummary p) ∧
    (mkSummary p).dataDays = 5 ∧
    (mkSummary p).dates = lastN 5 (valid_dates p) ∧
    List.Sorted (· < ·) (valid_dates p) ∧
    List.Sorted (· < ·) (mkSummary p).dates := by
  have hlen : (temperatures p).length = (valid_dates p).length :=
    temperatures_length p
  have hok : get_nasa_power_data p = .ok (mkSummary p) :=
    get_ok_of (hum_ne_nil_of_valid (by omega)) (by omega)
  have hsorted := valid_dates_sorted_lt hk
  have hdates : (mkSummary p).dates = lastN 5 (valid_dates p) := by
    show keptDates p = _
    unfold keptDates
    exact keep_eq_lastN (by omega) (by omega)
  refine ⟨hok, ?_, hdates, hsorted, ?_⟩
  · show (keptDates p).length = 5
    unfold keptDates
    exact keep_length_of_ge (by omega) (by omega)
  · rw [hdates]
    unfold lastN
    exact List.Pairwise.sublist (List.drop_sublist _ _) hsorted

theorem five_most_recent_witness :
    get_nasa_power_data W1 = .ok (mkSummary W1) ∧
    (mkSummary W1).dataDays = 5 ∧
    (mkSummary W1).dates = lastN 5 (valid_dates W1) ∧
    List.Sorted (· < ·) (valid_dates W1) ∧
    List.Sorted (· < ·) (mkSummary W1).dates :=
  five_most_recent W1 (by decide) (by decide)

/-- Claim C4: given a well-shaped payload with at least 3 raw dates, the
insufficient-valid-data 500 (whose message carries the valid-day count and
the valid-date list) is returned exactly when fewer than 3 days validate;
with 3 to 5 validated days the response is a success whose dayCount equals
the number of validated days. -/
theorem insufficient_valid_iff (p : Payload) (hh : p.hum ≠ [])
    (h3 : 3 ≤ (rawDates p).length) :
    (get_nasa_power_data p
        = .errInsufficientValid (temperatures p).length (valid_dates p)
      ↔ (temperatures p).length < 3) ∧
    (3 ≤ (temperatures p).length → (temperatures p).length ≤ 5 →
      get_nasa_power_data p = .ok (mkSummary p) ∧
        (mkSummary p).dataDays = (temperatures p).length) := by
  have hlen : (temperatures p).length = (valid_dates p).length :=
    temperatures_length p
  constructor
  · constructor
    · intro h
      by_contra hge
      rw [get_ok_of hh (by omega)] at h
      exact Result.noConfusion h
    · intro hlt
      unfold get_nasa_power_data
      rw [temp_isEmpty_false_of_raw (by omega), hum_isEmpty_false hh]
      simp only [Bool.false_eq_true, if_false]
      rw [if_neg (by omega), if_pos hlt]
  · intro hge hle
    refine ⟨get_ok_of hh hge, ?_⟩
    show (keptDates p).length = _
    unfold keptDates
    exact (keep_length_bounds (by omega) hge).2.2 hle

theorem insufficient_valid_iff_witness :
    (get_nasa_power_data W4
        = .errInsufficientValid (temperatures W4).length (valid_dates W4)
      ↔ (temperatures W4).length < 3) ∧
    (3 ≤ (temperatures W4).length → (temperatures W4).length ≤ 5 →
      get_nasa_power_data W4 = .ok (mkSummary W4) ∧
        (mkSummary W4).dataDays = (temperatures W4).length) :=
  insufficient_valid_iff W4 (by decide) (by decide)

/-- Claim C5: on every success the reported average temperature is
round(·,2) of the Kelvin-to-Celsius conversion applied once to the mean
of the kept temperatures (converted only when the mean exceeds 100), the
average humidity is the 2-decimal rounding of the mean of the kept
humidities, a mean of 300 yields 26.85 and a mean of 15 yields 15.0. -/
theorem avg_conversion_on_mean (p : Payload) (s : Summary)
    (h : get_nasa_power_data p = .ok s) :
    s.avgTemp = round2 (tempCelsius (mean s.temperatures)) ∧
    s.avgHumidity = round2 (mean s.humidities) ∧
    round2 (tempCelsius 300) = 26.85 ∧
    round2 (tempCelsius 15) = 15 := by
  obtain ⟨hs, -⟩ := get_eq_ok h
  subst hs
  refine ⟨rfl, rfl, ?_, ?_⟩
  · have h1 : tempCelsius 300 = 26.85 := by norm_num [tempCelsius]
    have h2 : (26.85 : ℚ) * 100 = ((2685 : ℤ) : ℚ) := by norm_num
    rw [round2, h1, h2, rhe_intCast]
    norm_num
  · have h1 : tempCelsius 15 = 15 := by norm_num [tempCelsius]
    have h2 : (15 : ℚ) * 100 = ((1500 : ℤ) : ℚ) := by norm_num
    rw [round2, h1, h2, rhe_intCast]
    norm_num

theorem avg_conversion_on_mean_witness :
    (mkSummary W1).avgTemp
        = round2 (tempCelsius (mean (mkSummary W1).temperatures)) ∧
    (mkSummary W1).avgHumidity = round2 (mean (mkSummary W1).humidities) ∧
    round2 (tempCelsius 300) = 26.85 ∧
    round2 (tempCelsius 15) = 15 :=
  avg_conversion_on_mean W1 (mkSummary W1) rfl

/-- Claim C7: a well-shaped payload with fewer than 3 raw temperature
dates fails with the insufficient-history 500 carrying the raw date count
and the dates themselves; the outcome is the same for any payload with
the same temperature keys, whatever its temperature values or humidity
series — the check precedes all validity filtering. -/
theorem insufficient_raw_precheck (p q : Payload) (ht : p.temp ≠ [])
    (hh : p.hum ≠ []) (hr : (rawDates p).length < 3)
    (hq : q.temp.map Prod.fst = p.temp.map Prod.fst) (hqh : q.hum ≠ []) :
    get_nasa_power_data p
        = .errInsufficientRaw (rawDates p).length (rawDates p) ∧
    get_nasa_power_data q
        = .errInsufficientRaw (rawDates p).length (rawDates p) := by
  have hqraw : rawDates q = rawDates p := by
    unfold rawDates
    rw [hq]
  have hqt : q.temp ≠ [] := by
    intro h0
    apply ht
    have hmap : p.temp.map Prod.fst = [] := by rw [← hq, h0]; rfl
    exact List.map_eq_nil_iff.mp hmap
  refine ⟨get_insufficientRaw_of ht hh hr, ?_⟩
  rw [get_insufficientRaw_of hqt hqh (by rw [hqraw]; exact hr), hqraw]

theorem insufficient_raw_precheck_witness :
    get_nasa_power_data P7
        = .errInsufficientRaw (rawDates P7).length (rawDates P7) ∧
    get_nasa_power_data Q7
        = .errInsufficientRaw (rawDates P7).length (rawDates P7) :=
  insufficient_raw_precheck P7 Q7 (by decide) (by decide) (by decide)
    (by decide) (by decide)

/-- Claim C8: on success, the dates, temperatures and humidities of the
summary all have length dayCount, dayCount lies in [3,5], and every
reported temperature is a raw classifier-accepted (pre-conversion) value
of the temperature series. -/
theorem summary_invariants (p : Payload) (s : Summary) (t : ℚ)
    (h : get_nasa_power_data p = .ok s) (ht : t ∈ s.temperatures) :
    s.dates.length = s.dataDays ∧
    s.temperatures.length = s.dataDays ∧
    s.humidities.length = s.dataDays ∧
    3 ≤ s.dataDays ∧ s.dataDays ≤ 5 ∧
    ∃ d, temp_valid (getD p.temp d) = some t := by
  obtain ⟨hs, h3⟩ := get_eq_ok h
  subst hs
  have hvl : (temperatures p).length = (valid_dates p).length :=
    temperatures_length p
  have hhl : (humidities p).length = (valid_dates p).length :=
    humidities_length p
  refine ⟨rfl, ?_, ?_, ?_, ?_, ?_⟩
  · show (keptTemps p).length = (keptDates p).length
    unfold keptTemps keptDates
    exact keep_length_congr (by omega)
  · show (keptHums p).length = (keptDates p).length
    unfold keptHums keptDates
    exact keep_length_congr (by omega)
  · show 3 ≤ (keptDates p).length
    unfold keptDates
    exact (keep_length_bounds (by omega) (by omega)).1
  · show (keptDates p).length ≤ 5
    unfold keptDates
    exact (keep_length_bounds (by omega) (by omega)).2.1
  · have htm : t ∈ temperatures p := (keep_sublist _ _).subset ht
    rcases List.mem_map.mp htm with ⟨x, hx, hxt⟩
    refine ⟨x.1, ?_⟩
    rw [(mem_validTriples hx).1, hxt]

theorem summary_invariants_witness :
    (mkSummary W1).dates.length = (mkSummary W1).dataDays ∧
    (mkSummary W1).temperatures.length = (mkSummary W1).dataDays ∧
    (mkSummary W1).humidities.length = (mkSummary W1).dataDays ∧
    3 ≤ (mkSummary W1).dataDays ∧ (mkSummary W1).dataDays ≤ 5 ∧
    ∃ d, temp_valid (getD W1.temp d) = some 302 :=
  summary_invariants W1 (mkSummary W1) 302 rfl (by decide)

/-- Claim C10: the candidate dates of the whole pipeline come from the
temperature series alone: on success every kept date (and every valid
date) is a key of the T2M series, a date absent from T2M never appears in
the output even if RH2M carries it, the candidate-date list is unchanged
by replacing the humidity series, and the raw-date count tested by the
fewer-than-3 check equals the number of T2M entries. -/
theorem dates_from_temp_series (p : Payload) (s : Summary)
    (hum2 : List (ℕ × RawVal)) (d0 : ℕ)
    (h : get_nasa_power_data p = .ok s) (hd0 : d0 ∉ p.temp.map Prod.fst) :
    s.dates ⊆ p.temp.map Prod.fst ∧
    valid_dates p ⊆ p.temp.map Prod.fst ∧
    d0 ∉ s.dates ∧
    rawDates ⟨p.temp, hum2⟩ = rawDates p ∧
    (rawDates p).length = p.temp.length := by
  obtain ⟨hs, -⟩ := get_eq_ok h
  subst hs
  have hvsub : valid_dates p ⊆ p.temp.map Prod.fst := by
    intro d hd
    exact (rawDates_perm p).mem_iff.mp ((valid_dates_sublist p).subset hd)
  have hssub : (mkSummary p).dates ⊆ p.temp.map Prod.fst := by
    intro d hd
    have hd2 : d ∈ valid_dates p := by
      have hsub : List.Sublist (keptDates p) (valid_dates p) := keep_sublist _ _
      exact hsub.subset hd
    exact hvsub hd2
  exact ⟨hssub, hvsub, fun hmem => hd0 (hssub hmem), rfl, rawDates_length p⟩

theorem dates_from_temp_series_witness :
    (mkSummary W10).dates ⊆ W10.temp.map Prod.fst ∧
    valid_dates W10 ⊆ W10.temp.map Prod.fst ∧
    99 ∉ (mkSummary W10).dates ∧
    rawDates ⟨W10.temp, W10.hum⟩ = rawDates W10 ∧
    (rawDates W10).length = W10.temp.length :=
  dates_from_temp_series W10 (mkSummary W10) W10.hum 99 rfl (by decide)

end DollarSpotMap
